import Mathlib

/-!
Shallow embedding of the neakasa integration's concurrency-and-caching
core: the time-windowed value cache (`value_cacher.py`), the stateful
symmetric cipher (`api_encryption.py`), the credential-scoped connection
registry (`__init__.py`) and the coordinator's update/retry logic
(`coordinator.py`).  Timestamps and `timedelta` windows are modelled as
integers (arbitrary fixed time unit); Python `None` is `Option.none`;
byte strings are `List Nat`.
-/

namespace ValueCacher

/-- State of one `ValueCacher` slot, as in `ValueCacher.__init__`:
configured refresh and discard windows (`none` = unconfigured
`timedelta`), the manual-stale flag, the stored value (`none` models a
stored Python `None` as well as "empty") and the last-update timestamp.
The asyncio lock and in-flight task are modelled separately in the
interleaving machine below. -/
structure CacherState (α : Type) where
  refresh_after : Option Int
  discard_after : Option Int
  manually_marked_stale : Bool
  value : Option α
  last_update : Option Int
deriving Repr, DecidableEq

variable {α : Type}

/-- `ValueCacher.set`: store a (possibly `None`) result with a fresh
timestamp and clear the manual-stale flag. -/
def set (now : Int) (s : CacherState α) (v : Option α) : CacherState α :=
  { s with value := v, last_update := some now, manually_marked_stale := false }

/-- `ValueCacher.clear`. -/
def clear (s : CacherState α) : CacherState α :=
  { s with value := none, last_update := none, manually_marked_stale := false }

/-- `ValueCacher.mark_as_stale`. -/
def mark_as_stale (s : CacherState α) : CacherState α :=
  { s with manually_marked_stale := true }

/-- `ValueCacher.value_if_not_stale`, evaluated at time `now`:
returns `none` if manually marked stale, no value, or no timestamp;
otherwise if a refresh window is configured, a non-positive window or an
elapsed time exceeding the window also yield `none`. -/
def value_if_not_stale (now : Int) (s : CacherState α) : Option α :=
  if s.manually_marked_stale then none
  else
    match s.value, s.last_update with
    | some v, some t =>
      match s.refresh_after with
      | none => some v
      | some r =>
        if r ≤ 0 then none
        else if now - t > r then none
        else some v
    | _, _ => none

/-- `ValueCacher.value_if_not_discarded`, evaluated at time `now`:
like freshness but against the discard window and ignoring the
manual-stale flag. -/
def value_if_not_discarded (now : Int) (s : CacherState α) : Option α :=
  match s.value, s.last_update with
  | some v, some t =>
    match s.discard_after with
    | none => some v
    | some d =>
      if d ≤ 0 then none
      else if now - t > d then none
      else some v
  | _, _ => none

/-- Result of one sequential `get_or_update` call: the returned value
(or propagated error), the slot state afterwards, and whether
`update_func` was invoked. -/
structure GOU (α : Type) where
  result : Except String (Option α)
  state : CacherState α
  invoked : Bool
deriving Repr

/-- `ValueCacher.get_or_update` for a single caller (the lock is free and
no task is in flight, so the under-lock re-check coincides with the fast
path): if the value is fresh return it; otherwise invoke `update_func`
(outcome `fetch`); on success store the result via `set`; on failure
return the not-yet-discarded fallback if present, else propagate. -/
def get_or_update (now : Int) (s : CacherState α) (fetch : Except String (Option α)) :
    GOU α :=
  match value_if_not_stale now s with
  | some v => ⟨Except.ok (some v), s, false⟩
  | none =>
    match fetch with
    | Except.ok r => ⟨Except.ok r, set now s r, true⟩
    | Except.error e =>
      match value_if_not_discarded now s with
      | some v => ⟨Except.ok (some v), s, true⟩
      | none => ⟨Except.error e, s, true⟩

/-- The fallback condition exactly as the spec words it (for refinement
comparison with `value_if_not_discarded`): "a value is usable as fallback
iff present AND (no discard window configured, OR elapsed-since-update ≤
discard window) — independent of the stale flag". -/
def spec_usable_as_fallback (now : Int) (s : CacherState α) : Bool :=
  s.value.isSome &&
    (match s.discard_after, s.last_update with
     | none, _ => true
     | some d, some t => decide (now - t ≤ d)
     | some _, none => false)

end ValueCacher

namespace ValueCacher

/-- C2: the freshness test yields the cached value iff the manual-stale
flag is unset, a value and timestamp are present, and either no refresh
window is configured or the window is strictly positive and the elapsed
time is at most the window; a slot with a zero refresh window is never
fresh, so every `get_or_update` call on it invokes the fetch function,
while with no configured window a fresh slot never refetches. -/
theorem freshness_test_characterization {α : Type} (now : Int) (s : CacherState α) :
    (∀ v : α, value_if_not_stale now s = some v ↔
      (s.manually_marked_stale = false ∧ s.value = some v ∧
        ∃ t, s.last_update = some t ∧
          (s.refresh_after = none ∨
            ∃ r, s.refresh_after = some r ∧ 0 < r ∧ now - t ≤ r))) ∧
    (s.refresh_after = some 0 → value_if_not_stale now s = none) ∧
    (s.refresh_after = some 0 →
      ∀ f, (get_or_update now s f).invoked = true) ∧
    (∀ v, value_if_not_stale now s = some v →
      ∀ f, (get_or_update now s f).invoked = false ∧
        (get_or_update now s f).result = Except.ok (some v)) := by
  obtain ⟨ra, da, st, v0, lu⟩ := s
  refine ⟨?_, ?_, ?_, ?_⟩
  · intro v
    cases st <;> cases v0 <;> cases lu <;> cases ra <;>
      simp [value_if_not_stale] <;>
      (try constructor) <;> (try intro h) <;>
      (try split_ifs at h ⊢) <;> simp_all <;> omega
  · intro h
    subst h
    cases st <;> cases v0 <;> cases lu <;> simp [value_if_not_stale]
  · intro h f
    subst h
    have hfresh : value_if_not_stale now (⟨some 0, da, st, v0, lu⟩ : CacherState α) = none := by
      cases st <;> cases v0 <;> cases lu <;> simp [value_if_not_stale]
    cases f <;> simp [get_or_update, hfresh] <;>
      (try split) <;> simp
  · intro v hv f
    simp [get_or_update, hv]

/-- C8 counterexample: a slot with a configured discard window of exactly
zero, holding a value stored at the current instant, is rejected by
`value_if_not_discarded` even though the spec's wording ("present AND (no
discard window configured OR elapsed ≤ discard window)") accepts it. -/
theorem fallback_zero_window_counterexample :
    value_if_not_discarded 0
        (⟨none, some 0, false, some 7, some 0⟩ : CacherState Nat) = none ∧
      spec_usable_as_fallback 0
        (⟨none, some 0, false, some 7, some 0⟩ : CacherState Nat) = true := by
  decide

/-- C8 (amended): the fallback test yields the cached value iff a value
and timestamp are present and either no discard window is configured or
the window is strictly positive and the elapsed time is at most the
window; the result is independent of the manual-stale flag. -/
theorem fallback_test_characterization {α : Type} (now : Int) (s : CacherState α) :
    (∀ v : α, value_if_not_discarded now s = some v ↔
      (s.value = some v ∧
        ∃ t, s.last_update = some t ∧
          (s.discard_after = none ∨
            ∃ d, s.discard_after = some d ∧ 0 < d ∧ now - t ≤ d))) ∧
    (∀ b, value_if_not_discarded now { s with manually_marked_stale := b } =
      value_if_not_discarded now s) := by
  obtain ⟨ra, da, st, v0, lu⟩ := s
  constructor
  · intro v
    cases v0 <;> cases lu <;> cases da <;>
      simp [value_if_not_discarded] <;>
      (try constructor) <;> (try intro h) <;>
      (try split_ifs at h ⊢) <;> simp_all <;> omega
  · intro b
    simp [value_if_not_discarded]

/-- C6: after `mark_as_stale` on a slot holding a value, the next
`get_or_update` invokes the fetch function whatever the refresh window;
if that refetch fails and the discard window has not elapsed (or is
unconfigured), the previous value is returned with the state unchanged;
if it succeeds, the new value is stored with a fresh timestamp and the
manual-stale flag is cleared. -/
theorem mark_as_stale_forces_refetch {α : Type} (now : Int) (s : CacherState α)
    (v : α) (t : Int) (hv : s.value = some v) (ht : s.last_update = some t) :
    (∀ f, (get_or_update now (mark_as_stale s) f).invoked = true) ∧
    (∀ e, (s.discard_after = none ∨
        ∃ d, s.discard_after = some d ∧ 0 < d ∧ now - t ≤ d) →
      (get_or_update now (mark_as_stale s) (Except.error e)).result =
          Except.ok (some v) ∧
        (get_or_update now (mark_as_stale s) (Except.error e)).state =
          mark_as_stale s) ∧
    (∀ r, (get_or_update now (mark_as_stale s) (Except.ok r)).result = Except.ok r ∧
      (get_or_update now (mark_as_stale s) (Except.ok r)).state =
        set now (mark_as_stale s) r ∧
      (set now (mark_as_stale s) r).manually_marked_stale = false ∧
      (set now (mark_as_stale s) r).last_update = some now) := by
  have hstale : value_if_not_stale now (mark_as_stale s) = none := by
    simp [value_if_not_stale, mark_as_stale]
  refine ⟨?_, ?_, ?_⟩
  · intro f
    cases f with
    | ok r => simp only [get_or_update, hstale]
    | error e =>
      simp only [get_or_update, hstale]
      cases hvd : value_if_not_discarded now (mark_as_stale s) <;> simp [hvd]
  · intro e hd
    have hfall : value_if_not_discarded now (mark_as_stale s) = some v := by
      rcases hd with hnone | ⟨d, hdeq, hdpos, hde⟩
      · simp [value_if_not_discarded, mark_as_stale, hv, ht, hnone]
      · simp only [value_if_not_discarded, mark_as_stale, hv, ht, hdeq]
        split_ifs with h1 h2
        · exact absurd h1 (by omega)
        · exact absurd h2 (by omega)
        · rfl
    simp only [get_or_update, hstale, hfall]
    simp
  · intro r
    simp only [get_or_update, hstale]
    simp [set]

/-- C10: when the fetch function returns `None` on a non-fresh slot,
`get_or_update` returns `None` to the caller and stores it; the stored
`None` is never fresh nor usable as a fallback, for any later time,
window configuration left in the slot, or setting of the stale flag, and
every subsequent `get_or_update` call invokes the fetch function again. -/
theorem none_result_indistinguishable {α : Type} (now : Int) (s : CacherState α)
    (h : value_if_not_stale now s = none) :
    (get_or_update now s (Except.ok none)).result = Except.ok none ∧
    (get_or_update now s (Except.ok none)).state = set now s none ∧
    (∀ now2 b,
      value_if_not_stale now2
          { set now s none with manually_marked_stale := b } = none ∧
      value_if_not_discarded now2
          { set now s none with manually_marked_stale := b } = none) ∧
    (∀ now2 f, (get_or_update now2 (set now s none) f).invoked = true) := by
  refine ⟨?_, ?_, ?_, ?_⟩
  · simp [get_or_update, h]
  · simp [get_or_update, h]
  · intro now2 b
    constructor <;> simp [value_if_not_stale, value_if_not_discarded, set]
  · intro now2 f
    have hfresh : value_if_not_stale now2 (set now s none) = none := by
      simp [value_if_not_stale, set]
    cases f <;> simp [get_or_update, hfresh] <;> (try split) <;> simp

/-- Witness: the freshness characterization evaluated on a concrete slot. -/
theorem freshness_test_characterization_witness :
    value_if_not_stale 1
        (⟨some 5, none, false, some 3, some 0⟩ : CacherState Nat) = some 3 :=
  ((freshness_test_characterization 1
      (⟨some 5, none, false, some 3, some 0⟩ : CacherState Nat)).1 3).mpr
    ⟨rfl, rfl, 0, rfl, Or.inr ⟨5, rfl, by decide, by decide⟩⟩

/-- Witness: the amended fallback characterization on a concrete slot
that is manually marked stale. -/
theorem fallback_test_characterization_witness :
    value_if_not_discarded 1
        (⟨none, some 5, true, some 3, some 0⟩ : CacherState Nat) = some 3 :=
  ((fallback_test_characterization 1
      (⟨none, some 5, true, some 3, some 0⟩ : CacherState Nat)).1 3).mpr
    ⟨rfl, 0, rfl, Or.inr ⟨5, rfl, by decide, by decide⟩⟩

/-- Witness: a marked-stale slot whose refetch fails inside the discard
window returns the previous value. -/
theorem mark_as_stale_forces_refetch_witness :
    (get_or_update 1
        (mark_as_stale
          (⟨some 100, some 10, false, some 3, some 0⟩ : CacherState Nat))
        (Except.error "boom")).result = Except.ok (some 3) :=
  ((mark_as_stale_forces_refetch 1
      (⟨some 100, some 10, false, some 3, some 0⟩ : CacherState Nat) 3 0 rfl rfl).2.1
    "boom" (Or.inr ⟨10, rfl, by decide, by decide⟩)).1

/-- Witness: a fetch returning `None` on an empty slot yields `None`. -/
theorem none_result_indistinguishable_witness :
    (get_or_update 0 (⟨none, none, false, none, none⟩ : CacherState Nat)
        (Except.ok none)).result = Except.ok none :=
  (none_result_indistinguishable 0
      (⟨none, none, false, none, none⟩ : CacherState Nat) rfl).1

end ValueCacher

namespace APIEncryption

/-- The AES-CBC primitive supplied by the external `cryptography`
library (`Cipher(algorithms.AES(key), modes.CBC(iv))`), abstracted as a
pair of byte-string transformers parameterized by key and IV.  The
repository only composes these library calls; their internals are not
repository code. -/
structure CipherFn where
  enc : List Nat → List Nat → List Nat → List Nat
  dec : List Nat → List Nat → List Nat → List Nat

/-- The process-wide default key and IV (`AES_KEY_DEFAULT`,
`AES_IV_DEFAULT`, imported from `const.py`; their concrete byte values
are irrelevant to the claims, so they are parameters). -/
structure Defaults where
  key : List Nat
  iv : List Nat

/-- `APIEncryption` state: active AES key, IV and rotating token, plus
the `userid`/`uid` attributes, which exist only once a login response
has set them (modelling Python attribute presence with `Option`). -/
structure CipherState where
  aes_key : List Nat
  aes_iv : List Nat
  token : List Nat
  userid : Option (List Nat)
  uid : Option (List Nat)
deriving Repr, DecidableEq

/-- `APIEncryption.resetEncryption`: restore the default key and IV and
an empty rotating token; `userid`/`uid` are not touched. -/
def resetEncryption (d : Defaults) (s : CipherState) : CipherState :=
  { s with aes_key := d.key, aes_iv := d.iv, token := [] }

/-- `APIEncryption._pad`: zero-pad to a 16-byte block boundary
(`pad_len = (-len(data)) % block_size`). -/
def _pad (data : List Nat) : List Nat :=
  data ++ List.replicate ((16 - data.length % 16) % 16) 0

/-- Strip all trailing zero bytes (`bytes.rstrip(b"\x00")`), the body of
`APIEncryption._unpad`. -/
def rstrip0 (l : List Nat) : List Nat :=
  (l.reverse.dropWhile (fun b => b == 0)).reverse

/-- `APIEncryption._unpad`. -/
def _unpad (data : List Nat) : List Nat :=
  rstrip0 data

/-- `APIEncryption.encrypt` at the byte level: zero-pad the UTF-8 bytes
and apply the cipher under the current key/IV.  The base64 wrapping of
the output is a standard-library bijection and is left out. -/
def encrypt (C : CipherFn) (s : CipherState) (plain_text : List Nat) : List Nat :=
  C.enc s.aes_key s.aes_iv (_pad plain_text)

/-- `APIEncryption.decrypt` at the byte level: apply the inverse cipher
under the current key/IV and strip trailing zero bytes.  The base64
unwrapping (with space-for-plus substitution) is a standard-library
inverse of the encoding used by `encrypt` and is left out. -/
def decrypt (C : CipherFn) (s : CipherState) (encrypted_text : List Nat) : List Nat :=
  _unpad (C.dec s.aes_key s.aes_iv encrypted_text)

/-- Python `str.split(sep)` for a one-byte separator over byte strings:
always returns at least one (possibly empty) segment. -/
def splitOn (sep : Nat) : List Nat → List (List Nat)
  | [] => [[]]
  | b :: bs =>
    match splitOn sep bs with
    | h :: t => if b = sep then [] :: h :: t else (b :: h) :: t
    | [] => [[b]]

/-- `APIEncryption.decodeLoginToken`: reset the cipher state, decrypt
the login token, split the plaintext on `"@"` (byte 64), then: part 0 →
rotating token; part 1 → `userid`, and `uid` := the encryption of part 1
under the state at that point (the reset key/IV); part 2 → AES key;
part 3 → AES IV. -/
def decodeLoginToken (C : CipherFn) (d : Defaults) (s : CipherState)
    (login_token : List Nat) : CipherState :=
  let s0 := resetEncryption d s
  let parts := splitOn 64 (decrypt C s0 login_token)
  let s1 := if 1 ≤ parts.length then { s0 with token := parts.headD [] } else s0
  let s2 :=
    if 2 ≤ parts.length then
      { s1 with userid := some (parts.getD 1 []),
                uid := some (encrypt C s1 (parts.getD 1 [])) }
    else s1
  let s3 := if 3 ≤ parts.length then { s2 with aes_key := parts.getD 2 [] } else s2
  if 4 ≤ parts.length then { s3 with aes_iv := parts.getD 3 [] } else s3

end APIEncryption

namespace APIEncryption

theorem rstrip0_append_replicate_zero (l : List Nat) (n : Nat) :
    rstrip0 (l ++ List.replicate n 0) = rstrip0 l := by
  unfold rstrip0
  rw [List.reverse_append, List.reverse_replicate]
  induction n with
  | zero => simp
  | succ m ih => simpa [List.replicate_succ] using ih

theorem rstrip0_eq_self_of_last_ne_zero (l : List Nat) (h : l.getLast? ≠ some 0) :
    rstrip0 l = l := by
  unfold rstrip0
  rcases hrev : l.reverse with _ | ⟨a, tl⟩
  · simp at hrev
    simp [hrev]
  · have hhead : l.getLast? = some a := by
      rw [← List.head?_reverse, hrev]
      rfl
    have ha : a ≠ 0 := by
      intro hz
      exact h (hz ▸ hhead)
    have : (a :: tl).dropWhile (fun b => b == 0) = a :: tl := by
      simp [List.dropWhile_cons, ha]
    rw [this, ← hrev, List.reverse_reverse]

/-- C7: under an unchanged key/IV whose block cipher round-trips
(`dec ∘ enc = id`, as AES-CBC does), decrypting an encryption of any
byte string yields the string with all trailing zero bytes removed; in
particular the round trip is the identity exactly when the plaintext has
no trailing zero byte. -/
theorem encrypt_decrypt_roundtrip (C : CipherFn) (s : CipherState)
    (hinv : ∀ x, C.dec s.aes_key s.aes_iv (C.enc s.aes_key s.aes_iv x) = x)
    (pt : List Nat) :
    decrypt C s (encrypt C s pt) = rstrip0 pt ∧
    (pt.getLast? ≠ some 0 → decrypt C s (encrypt C s pt) = pt) := by
  have hmain : decrypt C s (encrypt C s pt) = rstrip0 pt := by
    unfold decrypt encrypt _unpad
    rw [hinv]
    unfold _pad
    exact rstrip0_append_replicate_zero pt _
  exact ⟨hmain, fun h => hmain.trans (rstrip0_eq_self_of_last_ne_zero pt h)⟩

/-- The identity block transformer: a stand-in cipher for concrete
witness evaluation. -/
def idC : CipherFn :=
  ⟨fun _ _ x => x, fun _ _ x => x⟩

/-- Concrete default key/IV for witnesses. -/
def dflt : Defaults :=
  ⟨List.replicate 16 1, List.replicate 16 2⟩

/-- A freshly constructed cipher state over `dflt` (as
`APIEncryption.__init__` produces). -/
def st0 : CipherState :=
  ⟨dflt.key, dflt.iv, [], none, none⟩

/-- Witness: round-tripping the bytes of `"hi"` under the identity
block transformer returns them unchanged. -/
theorem encrypt_decrypt_roundtrip_witness :
    decrypt idC st0 (encrypt idC st0 [104, 105]) = [104, 105] :=
  (encrypt_decrypt_roundtrip idC st0 (fun _ => rfl) [104, 105]).2 (by decide)

/-- C5: if the decrypted login response splits on `"@"` into exactly the
three parts `p0, p1, p2`, the decoder sets the rotating token to `p0`,
`userid` to `p1`, derives `uid` by encrypting `p1` under the default
(reset) key and IV, replaces the AES key with `p2`, and leaves the IV at
its default; in general every field whose part is missing keeps its
value from the reset state. -/
theorem decodeLoginToken_parts (C : CipherFn) (d : Defaults) (s : CipherState)
    (tok p0 p1 p2 : List Nat)
    (hsplit : splitOn 64 (decrypt C (resetEncryption d s) tok) = [p0, p1, p2]) :
    decodeLoginToken C d s tok =
      ⟨p2, d.iv, p0, some p1, some (C.enc d.key d.iv (_pad p1))⟩ ∧
    (∀ t2, (splitOn 64 (decrypt C (resetEncryption d s) t2)).length < 4 →
      (decodeLoginToken C d s t2).aes_iv = (resetEncryption d s).aes_iv) ∧
    (∀ t2, (splitOn 64 (decrypt C (resetEncryption d s) t2)).length < 3 →
      (decodeLoginToken C d s t2).aes_key = (resetEncryption d s).aes_key) ∧
    (∀ t2, (splitOn 64 (decrypt C (resetEncryption d s) t2)).length < 2 →
      (decodeLoginToken C d s t2).userid = (resetEncryption d s).userid ∧
      (decodeLoginToken C d s t2).uid = (resetEncryption d s).uid) := by
  refine ⟨?_, ?_, ?_, ?_⟩
  · simp only [decodeLoginToken, hsplit]
    simp [encrypt, resetEncryption]
  · intro t2 h
    rcases hps : splitOn 64 (decrypt C (resetEncryption d s) t2) with
      _ | ⟨a, _ | ⟨b, _ | ⟨c, _ | ⟨e, rest⟩⟩⟩⟩
    · simp only [decodeLoginToken, hps]
      simp [resetEncryption]
    · simp only [decodeLoginToken, hps]
      simp [resetEncryption]
    · simp only [decodeLoginToken, hps]
      simp [resetEncryption]
    · simp only [decodeLoginToken, hps]
      simp [resetEncryption]
    · rw [hps] at h
      simp at h
      omega
  · intro t2 h
    rcases hps : splitOn 64 (decrypt C (resetEncryption d s) t2) with
      _ | ⟨a, _ | ⟨b, _ | ⟨c, rest⟩⟩⟩
    · simp only [decodeLoginToken, hps]
      simp [resetEncryption]
    · simp only [decodeLoginToken, hps]
      simp [resetEncryption]
    · simp only [decodeLoginToken, hps]
      simp [resetEncryption]
    · rw [hps] at h
      simp at h
      omega
  · intro t2 h
    rcases hps : splitOn 64 (decrypt C (resetEncryption d s) t2) with
      _ | ⟨a, _ | ⟨b, rest⟩⟩
    · simp only [decodeLoginToken, hps]
      simp [resetEncryption]
    · simp only [decodeLoginToken, hps]
      simp [resetEncryption]
    · rw [hps] at h
      simp at h
      omega

/-- A concrete encrypted login response: under the identity transformer
it decrypts to `"t@u@" ++` sixteen bytes of value 55, three parts. -/
def tokC : List Nat :=
  [116, 64, 117, 64] ++ List.replicate 16 55

/-- Witness: decoding the concrete three-part login response. -/
theorem decodeLoginToken_parts_witness :
    decodeLoginToken idC dflt st0 tokC =
      ⟨List.replicate 16 55, dflt.iv, [116], some [117],
        some (idC.enc dflt.key dflt.iv (_pad [117]))⟩ :=
  (decodeLoginToken_parts idC dflt st0 tokC [116] [117] (List.replicate 16 55)
    (by decide)).1

end APIEncryption

namespace Registry

/-- A `NeakasaAPI` session as the registry inspects it: the `connected`
flag, the `_iotToken` attribute (`none` models the attribute being
absent, `some ""` an empty token), and an instance identity tag
distinguishing distinct Python objects. -/
structure Session where
  connected : Bool
  iotToken : Option String
  tag : Nat
deriving Repr, DecidableEq

/-- The validity check of `get_shared_api`:
`api.connected and hasattr(api, '_iotToken') and api._iotToken`. -/
def apiValid (s : Session) : Bool :=
  s.connected &&
    (match s.iotToken with
     | some t => !(t = "")
     | none => false)

/-- One sequential `get_shared_api` call for a fixed credential key.
`st` is the registry entry for that key (`_shared_apis` lookup), `auth`
the outcome of `api.connect` on a freshly constructed instance.  Returns
the call's outcome and the entry afterwards: a valid entry is returned
unchanged; an invalid entry is deleted; then authentication registers
the new instance only on success and propagates failure. -/
def get_shared_api (st : Option Session) (auth : Except String Session) :
    Except String Session × Option Session :=
  match st with
  | some api =>
    if apiValid api then (Except.ok api, some api)
    else
      match auth with
      | Except.ok s => (Except.ok s, some s)
      | Except.error e => (Except.error e, none)
  | none =>
    match auth with
    | Except.ok s => (Except.ok s, some s)
    | Except.error e => (Except.error e, none)

/-- `clear_shared_api` restricted to the session map entry. -/
def clear_shared_api (_st : Option Session) : Option Session :=
  none

/-- `force_reconnect_api`: delete the entry, then `get_shared_api`. -/
def force_reconnect_api (st : Option Session) (auth : Except String Session) :
    Except String Session × Option Session :=
  match st with
  | some _ => get_shared_api none auth
  | none => get_shared_api none auth

/-- C4 counterexample: with a stale (disconnected) entry registered and
an authentication that fails, `get_shared_api` propagates the failure
but the registry state is changed — the stale entry has been discarded —
contradicting "state unchanged on error". -/
theorem get_shared_api_error_state_changed :
    (get_shared_api (some ⟨false, some "tok", 0⟩)
        (Except.error "auth failed")).2 = none ∧
      (get_shared_api (some ⟨false, some "tok", 0⟩)
        (Except.error "auth failed")).2 ≠ some ⟨false, some "tok", 0⟩ := by
  decide

/-- C4 (amended): `get_shared_api` returns the registered session
unchanged iff it reports connected with a non-empty token (for a fresh
authentication necessarily yielding a distinct instance); otherwise any
stale entry is discarded and a fresh authentication is performed,
registering its session only on success; on failure the failure
propagates and no entry remains for the identity (so the state is
unchanged on error only when no entry existed before the call). -/
theorem get_shared_api_characterization (st : Option Session)
    (auth : Except String Session)
    (hfresh : ∀ api, st = some api → auth ≠ Except.ok api) :
    (∀ api, st = some api → apiValid api = true →
      get_shared_api st auth = (Except.ok api, some api)) ∧
    (∀ api, st = some api → apiValid api = false →
      get_shared_api st auth =
        (match auth with
         | Except.ok s => (Except.ok s, some s)
         | Except.error e => (Except.error e, none))) ∧
    (st = none →
      get_shared_api st auth =
        (match auth with
         | Except.ok s => (Except.ok s, some s)
         | Except.error e => (Except.error e, none))) ∧
    (∀ e, auth = Except.error e →
      (∀ api, st = some api → apiValid api = false) →
      (get_shared_api st auth).1 = Except.error e ∧
      (get_shared_api st auth).2 = none) ∧
    (∀ api, st = some api →
      ((get_shared_api st auth).1 = Except.ok api ↔ apiValid api = true)) := by
  refine ⟨?_, ?_, ?_, ?_, ?_⟩
  · intro api hst hv
    subst hst
    simp [get_shared_api, hv]
  · intro api hst hv
    subst hst
    cases auth <;> simp [get_shared_api, hv]
  · intro hst
    subst hst
    cases auth <;> simp [get_shared_api]
  · intro e he hinv
    subst he
    cases st with
    | none => simp [get_shared_api]
    | some api =>
      have hv := hinv api rfl
      simp [get_shared_api, hv]
  · intro api hst
    subst hst
    constructor
    · intro hr
      by_contra hv
      replace hv : apiValid api = false := by simpa using hv
      have hne := hfresh api rfl
      cases auth with
      | ok s2 =>
        simp [get_shared_api, hv] at hr
        exact hne (by rw [hr])
      | error e => simp [get_shared_api, hv] at hr
    · intro hv
      simp [get_shared_api, hv]

/-- Witness: a connected, tokened entry is returned unchanged. -/
theorem get_shared_api_characterization_witness :
    get_shared_api (some ⟨true, some "tok", 0⟩) (Except.ok ⟨true, some "t2", 1⟩) =
      (Except.ok ⟨true, some "tok", 0⟩, some ⟨true, some "tok", 0⟩) :=
  (get_shared_api_characterization (some ⟨true, some "tok", 0⟩)
      (Except.ok ⟨true, some "t2", 1⟩)
      (by intro api h; cases h; simp)).1
    ⟨true, some "tok", 0⟩ rfl (by decide)

end Registry

namespace Coordinator

/-- Declared field names of the `NeakasaAPIData` dataclass (the
commented-out fields are not declared). -/
def snapshotFields : List String :=
  ["binFullWaitReset", "sandLevelState", "sandLevelPercent", "bucketStatus",
   "room_of_bin", "stayTime", "lastUse", "cat_list", "record_list"]

/-- The dataclass fields without default values (all but `cat_list` and
`record_list`), which every constructor call must supply. -/
def requiredSnapshotFields : List String :=
  ["binFullWaitReset", "sandLevelState", "sandLevelPercent", "bucketStatus",
   "room_of_bin", "stayTime", "lastUse"]

/-- Keyword arguments of the `NeakasaAPIData(...)` call on the first
(non-retry) attempt in `async_update_data`. -/
def firstAttemptKwargs : List String :=
  ["binFullWaitReset", "sandLevelPercent", "bucketStatus", "room_of_bin",
   "sandLevelState", "stayTime", "lastUse", "cat_list", "record_list"]

/-- Keyword arguments of the `NeakasaAPIData(...)` calls in both retry
blocks (after the auth-error reconnect and after the identityId
reconnect). -/
def retryKwargs : List String :=
  ["binFullWaitReset", "cleanCfg", "youngCatMode", "childLockOnOff",
   "autoBury", "autoLevel", "silentMode", "autoForceInit", "bIntrptRangeDet",
   "sandLevelPercent", "wifiRssi", "bucketStatus", "room_of_bin",
   "sandLevelState", "stayTime", "lastUse", "cat_list", "record_list"]

/-- Python dataclass construction: succeeds iff every keyword argument
names a declared field and every field without a default is supplied;
otherwise the call raises `TypeError`. -/
def constructOk (kwargs : List String) : Bool :=
  kwargs.all (fun k => snapshotFields.contains k) &&
    requiredSnapshotFields.all (fun k => kwargs.contains k)

/-- Outcome of the initial guarded fetch sequence of
`async_update_data` (device properties and records through the caches). -/
inductive FirstOutcome where
  | ok
  | authError
  | connError (msg : String)
deriving Repr, DecidableEq

/-- Observable outcome of one `async_update_data` cycle: whether a
snapshot was returned, whether `UpdateFailed` was raised, how many
forced reconnects ran, and how many retry fetch sequences ran. -/
structure UpdateRun where
  snapshotReturned : Bool
  updateFailed : Bool
  reconnects : Nat
  retryFetches : Nat
deriving Repr, DecidableEq

/-- Python's `in` on strings: `needle` occurs as a contiguous substring
of `hay`. -/
def containsSub (needle : List Char) : List Char → Bool
  | [] => needle.isEmpty
  | c :: rest => needle.isPrefixOf (c :: rest) || containsSub needle rest

/-- `NeakasaCoordinator.async_update_data`, abstracted over the fetch
outcomes: on success, assemble the snapshot with `firstAttemptKwargs`;
on `APIAuthError`, or on `APIConnectionError` whose message contains
`"identityId is blank"`, force exactly one reconnect and retry the
fetches once, assembling the snapshot with `retryKwargs`; any failure
inside the retry (including a `TypeError` from the constructor call) is
caught and converted to `UpdateFailed`; other connection errors raise
`UpdateFailed` directly. -/
def async_update_data (first : FirstOutcome) (reconnectOk retryFetchOk : Bool) :
    UpdateRun :=
  match first with
  | FirstOutcome.ok =>
    if constructOk firstAttemptKwargs then ⟨true, false, 0, 0⟩
    else ⟨false, true, 0, 0⟩
  | FirstOutcome.authError =>
    if reconnectOk then
      if retryFetchOk then
        if constructOk retryKwargs then ⟨true, false, 1, 1⟩
        else ⟨false, true, 1, 1⟩
      else ⟨false, true, 1, 1⟩
    else ⟨false, true, 1, 0⟩
  | FirstOutcome.connError msg =>
    if containsSub ("identityId is blank".data) msg.data then
      if reconnectOk then
        if retryFetchOk then
          if constructOk retryKwargs then ⟨true, false, 1, 1⟩
          else ⟨false, true, 1, 1⟩
        else ⟨false, true, 1, 1⟩
      else ⟨false, true, 1, 0⟩
    else ⟨false, true, 0, 0⟩

/-- C3: the orchestrator does perform exactly one forced reconnect and
one retry on an auth error or an "identityId is blank" connection error,
and a failed retry is terminal; but when the retry's fetches succeed the
code still raises `UpdateFailed` instead of returning a snapshot: both
retry blocks construct `NeakasaAPIData` with keyword arguments
(`cleanCfg`, ...) that are not declared fields, so the constructor
raises `TypeError`, which the surrounding handler converts to
`UpdateFailed`.  The first-attempt constructor call uses only declared
fields, confirming the retry blocks as the slip. -/
theorem retry_snapshot_construction_fails :
    async_update_data FirstOutcome.authError true true = ⟨false, true, 1, 1⟩ ∧
    async_update_data
        (FirstOutcome.connError "identityId is blank for request") true true =
      ⟨false, true, 1, 1⟩ ∧
    constructOk retryKwargs = false ∧
    "cleanCfg" ∈ retryKwargs ∧
    "cleanCfg" ∉ snapshotFields ∧
    constructOk firstAttemptKwargs = true ∧
    async_update_data FirstOutcome.authError true false = ⟨false, true, 1, 1⟩ ∧
    async_update_data FirstOutcome.authError false true = ⟨false, true, 1, 0⟩ ∧
    async_update_data (FirstOutcome.connError "timeout") true true =
      ⟨false, true, 0, 0⟩ := by
  decide

end Coordinator

namespace CacherMachine

open ValueCacher

/-- Control location of one `get_or_update` caller at its suspension
points (cooperative single-threaded scheduling): the lock-free fast
path, waiting on `async with self._lock`, the re-check under the lock,
awaiting the freshly created in-flight task, the resumption after the
task completed (store, clear in-flight marker), awaiting another
caller's in-flight task, and completion with a result. -/
inductive Loc where
  | start
  | wantLock
  | locked
  | running
  | finishing (r : Nat)
  | joinOther
  | done (r : Nat)
deriving Repr, DecidableEq

/-- The state shared by both callers: the cache slot, the asyncio lock,
the `_inflight` marker, and how many fetches have executed so far
(the `k`-th execution of `update_func` returns `fetchRet k`). -/
structure Shared where
  slot : CacherState Nat
  lockHeld : Bool
  inflight : Bool
  fetchCount : Nat
deriving Repr, DecidableEq

/-- One atomic step of a caller at `pc` (interleavings only switch at
`await` boundaries; in-flight time is frozen at instant `0`).  A caller
blocked on a held lock, or stuck awaiting another task, stutters. -/
def stepProc (fetchRet : Nat → Nat) (sh : Shared) (pc : Loc) : Shared × Loc :=
  match pc with
  | Loc.start =>
    match value_if_not_stale 0 sh.slot with
    | some v => (sh, Loc.done v)
    | none => (sh, Loc.wantLock)
  | Loc.wantLock =>
    if sh.lockHeld then (sh, Loc.wantLock)
    else ({ sh with lockHeld := true }, Loc.locked)
  | Loc.locked =>
    match value_if_not_stale 0 sh.slot with
    | some v => ({ sh with lockHeld := false }, Loc.done v)
    | none =>
      if sh.inflight then (sh, Loc.joinOther)
      else ({ sh with inflight := true }, Loc.running)
  | Loc.running =>
    ({ sh with
        slot := ValueCacher.set 0 sh.slot (some (fetchRet sh.fetchCount)),
        inflight := false,
        fetchCount := sh.fetchCount + 1 },
      Loc.finishing (fetchRet sh.fetchCount))
  | Loc.finishing r => ({ sh with lockHeld := false }, Loc.done r)
  | Loc.joinOther => (sh, Loc.joinOther)
  | Loc.done r => (sh, Loc.done r)

/-- Joint state of the two concurrent callers. -/
structure MState where
  sh : Shared
  pcA : Loc
  pcB : Loc
deriving Repr, DecidableEq

/-- Scheduler step: `true` advances caller A, `false` caller B. -/
def step (fetchRet : Nat → Nat) (st : MState) (who : Bool) : MState :=
  if who then
    let p := stepProc fetchRet st.sh st.pcA
    ⟨p.1, p.2, st.pcB⟩
  else
    let p := stepProc fetchRet st.sh st.pcB
    ⟨p.1, st.pcA, p.2⟩

/-- Run a whole interleaving schedule. -/
def run (fetchRet : Nat → Nat) (sched : List Bool) (st : MState) : MState :=
  match sched with
  | [] => st
  | w :: ws => run fetchRet ws (step fetchRet st w)

/-- An empty slot configured with the given refresh/discard windows. -/
def initSlot (rw dw : Option Int) : CacherState Nat :=
  ⟨rw, dw, false, none, none⟩

/-- Both callers at their entry, nothing cached, lock free. -/
def initState (rw dw : Option Int) : MState :=
  ⟨⟨initSlot rw dw, false, false, 0⟩, Loc.start, Loc.start⟩

/-- Locations that hold the slot lock. -/
def lockedRegion : Loc → Bool
  | Loc.locked => true
  | Loc.running => true
  | Loc.finishing _ => true
  | _ => false

/-- Locations with this caller's fetch in flight. -/
def isRunning : Loc → Bool
  | Loc.running => true
  | _ => false

/-- Structural invariant of the two-caller machine, independent of the
window configuration: the lock is held exactly by a caller inside the
locked region, at most one caller is inside it (so at most one fetch is
in flight), the in-flight marker tracks the running fetch, and the
await-another-task branch is never reached. -/
def InvG (st : MState) : Prop :=
  st.sh.lockHeld = (lockedRegion st.pcA || lockedRegion st.pcB) ∧
  ¬(lockedRegion st.pcA = true ∧ lockedRegion st.pcB = true) ∧
  st.sh.inflight = (isRunning st.pcA || isRunning st.pcB) ∧
  st.pcA ≠ Loc.joinOther ∧
  st.pcB ≠ Loc.joinOther

/-- Swap the two callers. -/
def MState.swap (st : MState) : MState :=
  ⟨st.sh, st.pcB, st.pcA⟩

theorem step_false_eq_swap (fetchRet : Nat → Nat) (st : MState) :
    step fetchRet st false = (step fetchRet st.swap true).swap := by
  cases st
  rfl

theorem invG_swap (st : MState) : InvG st.swap ↔ InvG st := by
  obtain ⟨sh, pcA, pcB⟩ := st
  unfold InvG MState.swap
  constructor <;> intro ⟨h1, h2, h3, h4, h5⟩ <;>
    exact ⟨by rw [h1, Bool.or_comm], fun hc => h2 ⟨hc.2, hc.1⟩,
      by rw [h3, Bool.or_comm], h5, h4⟩

theorem invG_step_true (fetchRet : Nat → Nat) (st : MState) (h : InvG st) :
    InvG (step fetchRet st true) := by
  obtain ⟨sh, pcA, pcB⟩ := st
  simp only [InvG] at h
  obtain ⟨h1, h2, h3, h4, h5⟩ := h
  cases pcA with
  | start =>
    cases hv : value_if_not_stale 0 sh.slot <;>
      cases pcB <;>
        simp_all [step, stepProc, InvG, lockedRegion, isRunning]
  | wantLock =>
    by_cases hl : sh.lockHeld = true <;>
      cases pcB <;>
        simp_all [step, stepProc, InvG, lockedRegion, isRunning]
  | locked =>
    cases hv : value_if_not_stale 0 sh.slot <;>
      cases pcB <;>
        simp_all [step, stepProc, InvG, lockedRegion, isRunning]
  | running =>
    cases pcB <;> simp_all [step, stepProc, InvG, lockedRegion, isRunning]
  | finishing r =>
    cases pcB <;> simp_all [step, stepProc, InvG, lockedRegion, isRunning]
  | joinOther => exact absurd rfl h4
  | done r =>
    cases pcB <;> simp_all [step, stepProc, InvG, lockedRegion, isRunning]

theorem invG_step (fetchRet : Nat → Nat) (st : MState) (who : Bool) (h : InvG st) :
    InvG (step fetchRet st who) := by
  cases who with
  | true => exact invG_step_true fetchRet st h
  | false =>
    rw [step_false_eq_swap]
    exact (invG_swap _).mpr (invG_step_true fetchRet st.swap ((invG_swap st).mpr h))

theorem invG_run (fetchRet : Nat → Nat) (sched : List Bool) (st : MState)
    (h : InvG st) : InvG (run fetchRet sched st) := by
  induction sched generalizing st with
  | nil => exact h
  | cons w ws ih => exact ih _ (invG_step fetchRet st w h)

/-- A refresh-window configuration under which a value stored at
instant `0` is fresh again at instant `0`: unset, or strictly positive. -/
def goodWindow : Option Int → Prop
  | none => True
  | some r => 0 < r

theorem freshness_initSlot (rw dw : Option Int) :
    value_if_not_stale 0 (initSlot rw dw) = none := by
  simp [value_if_not_stale, initSlot]

theorem freshness_setSlot (rw dw : Option Int) (hg : goodWindow rw) (x : Nat) :
    value_if_not_stale 0 (ValueCacher.set 0 (initSlot rw dw) (some x)) = some x := by
  cases rw with
  | none => simp [value_if_not_stale, ValueCacher.set, initSlot]
  | some r =>
    have hr : 0 < r := hg
    simp [value_if_not_stale, ValueCacher.set, initSlot, hr.not_le]
    omega

/-- Value-tracking invariant for a run started on an empty slot with a
`goodWindow` refresh configuration: at most one fetch ever executes, the
slot is either still empty or holds the first fetch's result, and every
completed caller finished with that result. -/
def InvW (fetchRet : Nat → Nat) (rw dw : Option Int) (st : MState) : Prop :=
  ((st.sh.fetchCount = 0 ∧ st.sh.slot = initSlot rw dw) ∨
   (st.sh.fetchCount = 1 ∧
    st.sh.slot = ValueCacher.set 0 (initSlot rw dw) (some (fetchRet 0)))) ∧
  (st.pcA = Loc.running → st.sh.fetchCount = 0) ∧
  (st.pcB = Loc.running → st.sh.fetchCount = 0) ∧
  (∀ r, st.pcA = Loc.finishing r → r = fetchRet 0 ∧ st.sh.fetchCount = 1) ∧
  (∀ r, st.pcB = Loc.finishing r → r = fetchRet 0 ∧ st.sh.fetchCount = 1) ∧
  (∀ v, st.pcA = Loc.done v → v = fetchRet 0 ∧ 1 ≤ st.sh.fetchCount) ∧
  (∀ v, st.pcB = Loc.done v → v = fetchRet 0 ∧ 1 ≤ st.sh.fetchCount)

theorem invW_swap (fetchRet : Nat → Nat) (rw dw : Option Int) (st : MState) :
    InvW fetchRet rw dw st.swap ↔ InvW fetchRet rw dw st := by
  obtain ⟨sh, pcA, pcB⟩ := st
  unfold InvW MState.swap
  constructor <;> intro ⟨w1, w2, w3, w4, w5, w6, w7⟩ <;>
    exact ⟨w1, w3, w2, w5, w4, w7, w6⟩

theorem invW_step_true (fetchRet : Nat → Nat) (rw dw : Option Int)
    (hg : goodWindow rw) (st : MState) (hG : InvG st)
    (hW : InvW fetchRet rw dw st) : InvW fetchRet rw dw (step fetchRet st true) := by
  obtain ⟨sh, pcA, pcB⟩ := st
  simp only [InvG] at hG
  obtain ⟨g1, g2, g3, g4, g5⟩ := hG
  simp only [InvW] at hW
  obtain ⟨w1, w2, w3, w4, w5, w6, w7⟩ := hW
  cases pcA with
  | start =>
    cases hv : value_if_not_stale 0 sh.slot with
    | none =>
      simp only [step, stepProc, hv]
      exact ⟨w1, by simp, w3, by simp, w5, by simp, w7⟩
    | some v =>
      have hc : sh.fetchCount = 1 ∧ v = fetchRet 0 := by
        rcases w1 with ⟨hc0, hs⟩ | ⟨hc1, hs⟩
        · rw [hs, freshness_initSlot] at hv
          cases hv
        · rw [hs, freshness_setSlot rw dw hg] at hv
          injection hv with hv
          exact ⟨hc1, hv.symm⟩
      simp only [step, stepProc, hv]
      obtain ⟨hc1, hc2⟩ := hc
      refine ⟨w1, by simp, w3, by simp, w5, ?_, w7⟩
      intro u hu
      injection hu with hu
      subst hu
      exact ⟨hc2, le_of_eq hc1.symm⟩
  | wantLock =>
    by_cases hl : sh.lockHeld = true
    · simp only [step, stepProc, hl, if_true]
      exact ⟨w1, by simp, w3, by simp, w5, by simp, w7⟩
    · have hl2 : sh.lockHeld = false := by simpa using hl
      simp only [step, stepProc, hl2, Bool.false_eq_true, if_false]
      exact ⟨w1, by simp, w3, by simp, w5, by simp, w7⟩
  | locked =>
    cases hv : value_if_not_stale 0 sh.slot with
    | some v =>
      have hc : sh.fetchCount = 1 ∧ v = fetchRet 0 := by
        rcases w1 with ⟨hc0, hs⟩ | ⟨hc1, hs⟩
        · rw [hs, freshness_initSlot] at hv
          cases hv
        · rw [hs, freshness_setSlot rw dw hg] at hv
          injection hv with hv
          exact ⟨hc1, hv.symm⟩
      simp only [step, stepProc, hv]
      obtain ⟨hc1, hc2⟩ := hc
      refine ⟨w1, by simp, w3, by simp, w5, ?_, w7⟩
      intro u hu
      injection hu with hu
      subst hu
      exact ⟨hc2, le_of_eq hc1.symm⟩
    | none =>
      have hc0 : sh.fetchCount = 0 := by
        rcases w1 with ⟨hc0, _⟩ | ⟨hc1, hs⟩
        · exact hc0
        · rw [hs, freshness_setSlot rw dw hg] at hv
          cases hv
      by_cases hi : sh.inflight = true
      · simp only [step, stepProc, hv, hi, if_true]
        exact ⟨w1, by simp, w3, by simp, w5, by simp, w7⟩
      · have hi2 : sh.inflight = false := by simpa using hi
        simp only [step, stepProc, hv, hi2, Bool.false_eq_true, if_false]
        exact ⟨w1, fun _ => hc0, w3, by simp, w5, by simp, w7⟩
  | running =>
    have hc0 : sh.fetchCount = 0 := w2 rfl
    have hBnr : pcB ≠ Loc.running := by
      intro hb
      exact g2 ⟨by simp [lockedRegion], by rw [hb]; simp [lockedRegion]⟩
    have hBnf : ∀ r, pcB ≠ Loc.finishing r := by
      intro r hb
      exact g2 ⟨by simp [lockedRegion], by rw [hb]; simp [lockedRegion]⟩
    have hslot : sh.slot = initSlot rw dw := by
      rcases w1 with ⟨_, hs⟩ | ⟨hc1, _⟩
      · exact hs
      · omega
    simp only [step, stepProc]
    refine ⟨Or.inr ⟨by simp [hc0], by simp [hslot, hc0]⟩, by simp, ?_, ?_, ?_, by simp, ?_⟩
    · intro hb
      exact absurd hb hBnr
    · intro r hr
      injection hr with hr
      exact ⟨by rw [← hr, hc0], by simp [hc0]⟩
    · intro r hb
      exact absurd hb (hBnf r)
    · intro v hb
      obtain ⟨hb1, hb2⟩ := w7 v hb
      exact ⟨hb1, by simp⟩
  | finishing r =>
    have hrf := w4 r rfl
    have hBnr : pcB ≠ Loc.running := by
      intro hb
      exact g2 ⟨by simp [lockedRegion], by rw [hb]; simp [lockedRegion]⟩
    simp only [step, stepProc]
    refine ⟨w1, by simp, ?_, by simp, w5, ?_, w7⟩
    · intro hb
      exact absurd hb hBnr
    · intro v hv2
      injection hv2 with hv2
      subst hv2
      exact ⟨hrf.1, le_of_eq hrf.2.symm⟩
  | joinOther =>
    simp only [step, stepProc]
    exact ⟨w1, by simp, w3, by simp, w5, by simp, w7⟩
  | done r =>
    simp only [step, stepProc]
    exact ⟨w1, by simp, w3, by simp, w5, w6, w7⟩

theorem invW_step (fetchRet : Nat → Nat) (rw dw : Option Int)
    (hg : goodWindow rw) (st : MState) (who : Bool) (hG : InvG st)
    (hW : InvW fetchRet rw dw st) : InvW fetchRet rw dw (step fetchRet st who) := by
  cases who with
  | true => exact invW_step_true fetchRet rw dw hg st hG hW
  | false =>
    rw [step_false_eq_swap]
    exact (invW_swap _ _ _ _).mpr
      (invW_step_true fetchRet rw dw hg st.swap ((invG_swap st).mpr hG)
        ((invW_swap _ _ _ st).mpr hW))

theorem invW_run (fetchRet : Nat → Nat) (rw dw : Option Int)
    (hg : goodWindow rw) (sched : List Bool) (st : MState) (hG : InvG st)
    (hW : InvW fetchRet rw dw st) : InvW fetchRet rw dw (run fetchRet sched st) := by
  induction sched generalizing st with
  | nil => exact hW
  | cons w ws ih =>
    exact ih _ (invG_step fetchRet st w hG) (invW_step fetchRet rw dw hg st w hG hW)

/-- C1 counterexample: on a slot with a zero refresh window (the
device-properties cache configuration) and nothing cached, the
interleaving that runs caller A to completion and then caller B executes
the fetch function twice and the two callers observe different results
(`fetchRet = id`, so fetch `k` returns `k`): the claim's "exactly one
invocation and both observe the same result for every interleaving"
fails. -/
theorem concurrent_get_or_update_counterexample :
    (run (fun k => k)
        [true, true, true, true, true, false, false, false, false, false]
        (initState (some 0) (some 100))).sh.fetchCount = 2 ∧
    (run (fun k => k)
        [true, true, true, true, true, false, false, false, false, false]
        (initState (some 0) (some 100))).pcA = Loc.done 0 ∧
    (run (fun k => k)
        [true, true, true, true, true, false, false, false, false, false]
        (initState (some 0) (some 100))).pcB = Loc.done 1 := by
  decide

/-- C1 (amended): for every interleaving of two concurrent
`get_or_update` calls on an empty slot, at most one fetch is in flight
at any time (single-flight, any window configuration); and when the
refresh window is unset or strictly positive, if both callers complete
then exactly one fetch executed and both observed its result.  (With a
zero refresh window the second caller re-fetches after the first
completes, as the counterexample shows.) -/
theorem concurrent_single_flight_amended (fetchRet : Nat → Nat)
    (rw dw : Option Int) (sched : List Bool) :
    (¬((run fetchRet sched (initState rw dw)).pcA = Loc.running ∧
       (run fetchRet sched (initState rw dw)).pcB = Loc.running)) ∧
    (goodWindow rw →
      ∀ va vb, (run fetchRet sched (initState rw dw)).pcA = Loc.done va →
        (run fetchRet sched (initState rw dw)).pcB = Loc.done vb →
        (run fetchRet sched (initState rw dw)).sh.fetchCount = 1 ∧
          va = fetchRet 0 ∧ vb = fetchRet 0) := by
  have hG0 : InvG (initState rw dw) := by
    refine ⟨rfl, ?_, rfl, by simp [initState], by simp [initState]⟩
    simp [initState, lockedRegion]
  have hG := invG_run fetchRet sched _ hG0
  constructor
  · intro ⟨ha, hb⟩
    obtain ⟨g1, g2, g3, g4, g5⟩ := hG
    exact g2 ⟨by rw [ha]; simp [lockedRegion], by rw [hb]; simp [lockedRegion]⟩
  · intro hg va vb hA hB
    have hW0 : InvW fetchRet rw dw (initState rw dw) := by
      refine ⟨Or.inl ⟨rfl, rfl⟩, by simp [initState], by simp [initState],
        by simp [initState], by simp [initState], by simp [initState],
        by simp [initState]⟩
    have hW := invW_run fetchRet rw dw hg sched _ hG0 hW0
    obtain ⟨w1, w2, w3, w4, w5, w6, w7⟩ := hW
    have hA2 := w6 va hA
    have hB2 := w7 vb hB
    have hcount : (run fetchRet sched (initState rw dw)).sh.fetchCount = 1 := by
      rcases w1 with ⟨hc0, _⟩ | ⟨hc1, _⟩
      · omega
      · exact hc1
    exact ⟨hcount, hA2.1, hB2.1⟩

/-- Witness: with no refresh window configured, the sequential
interleaving completes both callers with one fetch and equal results. -/
theorem concurrent_single_flight_amended_witness :
    (run (fun k => k) [true, true, true, true, true, false]
        (initState none none)).sh.fetchCount = 1 :=
  ((concurrent_single_flight_amended (fun k => k) none none
      [true, true, true, true, true, false]).2
    trivial 0 0 (by decide) (by decide)).1

end CacherMachine

namespace RegistryMachine

/-- Control location of one caller of `get_shared_api` (optionally via
`force_reconnect_api`) for a fixed credential key: the synchronous
prefix (optional entry deletion, lazy lock creation and lookup), waiting
on `async with _shared_locks[key]` for the captured lock object,
the under-lock check of `_shared_apis`, the suspension inside
`await api.connect` (an authentication in flight), and completion.  The
captured lock object survives deletion of its map entry. -/
inductive RLoc where
  | start
  | wantLock (l : Nat)
  | locked (l : Nat)
  | authing (l : Nat)
  | done
deriving Repr, DecidableEq

/-- Process-wide registry state for one credential key: the
`_shared_apis` entry (with the validity of the registered session:
`connected` and non-empty `_iotToken`), the `_shared_locks` entry (as
the id of the lock object currently in the map), the id supply, and the
held-flag of every lock object ever created. -/
structure RShared where
  apis : Option Bool
  regLock : Option Nat
  nextLock : Nat
  locks : List Bool
deriving Repr, DecidableEq

/-- One atomic step of a caller.  `force` selects `force_reconnect_api`
(which deletes the `_shared_apis` entry before calling
`get_shared_api`); the deletion, the lazy lock creation and the lock
lookup are synchronous, hence one atomic step.  A fresh authentication
always succeeds and registers a valid session. -/
def stepR (force : Bool) (sh : RShared) (pc : RLoc) : RShared × RLoc :=
  match pc with
  | RLoc.start =>
    let a1 := if force then none else sh.apis
    match sh.regLock with
    | some l => ({ sh with apis := a1 }, RLoc.wantLock l)
    | none =>
      ({ apis := a1,
         regLock := some sh.nextLock,
         nextLock := sh.nextLock + 1,
         locks := sh.locks ++ [false] }, RLoc.wantLock sh.nextLock)
  | RLoc.wantLock l =>
    if sh.locks.getD l false then (sh, RLoc.wantLock l)
    else ({ sh with locks := sh.locks.set l true }, RLoc.locked l)
  | RLoc.locked l =>
    match sh.apis with
    | some true => ({ sh with locks := sh.locks.set l false }, RLoc.done)
    | some false => ({ sh with apis := none }, RLoc.authing l)
    | none => (sh, RLoc.authing l)
  | RLoc.authing l =>
    ({ sh with apis := some true, locks := sh.locks.set l false }, RLoc.done)
  | RLoc.done => (sh, RLoc.done)

/-- The three interleaved actors: callers A and B, and a synchronous
`clear_shared_api` invocation. -/
inductive RWho where
  | A
  | B
  | inv
deriving Repr, DecidableEq

/-- Joint state of the two callers. -/
structure RMState where
  sh : RShared
  pcA : RLoc
  pcB : RLoc
deriving Repr, DecidableEq

/-- Scheduler step.  `clear_shared_api` deletes the `_shared_apis` entry
and the `_shared_locks` entry in one synchronous step; the lock object
itself (and any caller holding or awaiting it) is unaffected. -/
def rstep (forceA forceB : Bool) (st : RMState) (who : RWho) : RMState :=
  match who with
  | RWho.A =>
    let p := stepR forceA st.sh st.pcA
    ⟨p.1, p.2, st.pcB⟩
  | RWho.B =>
    let p := stepR forceB st.sh st.pcB
    ⟨p.1, st.pcA, p.2⟩
  | RWho.inv =>
    ⟨{ st.sh with apis := none, regLock := none }, st.pcA, st.pcB⟩

/-- Run a whole interleaving schedule. -/
def rrun (forceA forceB : Bool) (sched : List RWho) (st : RMState) : RMState :=
  match sched with
  | [] => st
  | w :: ws => rrun forceA forceB ws (rstep forceA forceB st w)

/-- Initial state: both callers at entry, no lock created yet, and an
arbitrary (possibly absent, possibly stale) registered session. -/
def initR (a0 : Option Bool) : RMState :=
  ⟨⟨a0, none, 0, []⟩, RLoc.start, RLoc.start⟩

/-- An authentication for this key is in flight. -/
def isAuthing : RLoc → Bool
  | RLoc.authing _ => true
  | _ => false

/-- C9 counterexample: caller A creates the per-identity lock, acquires
it and suspends inside `api.connect`; a `clear_shared_api` then deletes
the lock's map entry; caller B lazily creates a fresh lock, acquires it
immediately and starts a second `api.connect` — two authentications for
the same identity in flight at once, refuting total ordering under
interleavings that include `invalidate`. -/
theorem registry_concurrent_auth_counterexample :
    isAuthing
        (rrun false false [RWho.A, RWho.A, RWho.A, RWho.inv, RWho.B, RWho.B, RWho.B]
          (initR none)).pcA = true ∧
    isAuthing
        (rrun false false [RWho.A, RWho.A, RWho.A, RWho.inv, RWho.B, RWho.B, RWho.B]
          (initR none)).pcB = true := by
  decide

/-- Locations between lock acquisition and release. -/
def regionR : RLoc → Bool
  | RLoc.locked _ => true
  | RLoc.authing _ => true
  | _ => false

/-- The lock object a caller has captured from the map, if any. -/
def capturedId : RLoc → Option Nat
  | RLoc.wantLock l => some l
  | RLoc.locked l => some l
  | RLoc.authing l => some l
  | _ => none

/-- Invariant of runs that never execute `clear_shared_api`: only one
lock object is ever created (id `0`), it stays registered once created,
every captured lock is that one, at most one caller is between acquire
and release (hence at most one authentication in flight), and the held
flag tracks occupancy. -/
def RInv (st : RMState) : Prop :=
  st.sh.nextLock ≤ 1 ∧
  st.sh.locks.length = st.sh.nextLock ∧
  (∀ l, st.sh.regLock = some l → l = 0 ∧ st.sh.nextLock = 1) ∧
  (st.sh.regLock = none → st.sh.nextLock = 0) ∧
  (∀ l, capturedId st.pcA = some l → l = 0 ∧ st.sh.regLock = some 0) ∧
  (∀ l, capturedId st.pcB = some l → l = 0 ∧ st.sh.regLock = some 0) ∧
  ¬(regionR st.pcA = true ∧ regionR st.pcB = true) ∧
  st.sh.locks.getD 0 false = (regionR st.pcA || regionR st.pcB)

/-- Swap the two callers. -/
def RMState.rswap (st : RMState) : RMState :=
  ⟨st.sh, st.pcB, st.pcA⟩

theorem rstep_B_eq_rswap (fA fB : Bool) (st : RMState) :
    rstep fA fB st RWho.B = (rstep fB fA st.rswap RWho.A).rswap := by
  cases st
  rfl

theorem rinv_rswap (st : RMState) : RInv st.rswap ↔ RInv st := by
  obtain ⟨sh, pcA, pcB⟩ := st
  unfold RInv RMState.rswap
  constructor <;> intro ⟨i1, i2, i3, i4, i5, i6, i7, i8⟩ <;>
    exact ⟨i1, i2, i3, i4, i6, i5, fun hc => i7 ⟨hc.2, hc.1⟩,
      by rw [i8, Bool.or_comm]⟩

theorem regionR_start : regionR RLoc.start = false := rfl

theorem regionR_wantLock (l : Nat) : regionR (RLoc.wantLock l) = false := rfl

theorem regionR_locked (l : Nat) : regionR (RLoc.locked l) = true := rfl

theorem regionR_authing (l : Nat) : regionR (RLoc.authing l) = true := rfl

theorem regionR_done : regionR RLoc.done = false := rfl

theorem capturedId_done : capturedId RLoc.done = none := rfl

theorem rinv_stepA (f fB : Bool) (st : RMState) (h : RInv st) :
    RInv (rstep f fB st RWho.A) := by
  obtain ⟨sh, pcA, pcB⟩ := st
  simp only [RInv] at h
  obtain ⟨i1, i2, i3, i4, i5, i6, i7, i8⟩ := h
  have hBcap0 : ∀ l2, capturedId pcB = some l2 → sh.regLock = some 0 :=
    fun l2 hc => (i6 l2 hc).2
  cases pcA with
  | start =>
    rcases hrl : sh.regLock with _ | l
    · have hn0 : sh.nextLock = 0 := i4 hrl
      have hlk : sh.locks = [] := by
        have h2 := i2
        rw [hn0] at h2
        exact List.length_eq_zero.mp h2
      have hBc : ∀ l2, capturedId pcB = some l2 → False := by
        intro l2 hc
        have hx := hBcap0 l2 hc
        rw [hrl] at hx
        cases hx
      have hBr : regionR pcB = false := by
        cases pcB with
        | start => rfl
        | wantLock l2 => rfl
        | locked l2 => exact (hBc l2 rfl).elim
        | authing l2 => exact (hBc l2 rfl).elim
        | done => rfl
      simp only [rstep, stepR, hrl]
      refine ⟨?_, ?_, ?_, ?_, ?_, ?_, ?_, ?_⟩
      · show sh.nextLock + 1 ≤ 1
        omega
      · show (sh.locks ++ [false]).length = sh.nextLock + 1
        simp [hlk, hn0]
      · intro l2 hl2
        injection hl2 with h2
        subst h2
        exact ⟨hn0, by show sh.nextLock + 1 = 1; omega⟩
      · intro hx
        exact Option.noConfusion hx
      · intro l2 hl2
        injection hl2 with h2
        subst h2
        exact ⟨hn0, by show some sh.nextLock = some 0; rw [hn0]⟩
      · intro l2 hc
        exact (hBc l2 hc).elim
      · show ¬(regionR (RLoc.wantLock sh.nextLock) = true ∧ regionR pcB = true)
        simp [regionR_wantLock, hBr]
      · show (sh.locks ++ [false]).getD 0 false =
          (regionR (RLoc.wantLock sh.nextLock) || regionR pcB)
        simp [hlk, regionR_wantLock, hBr]
    · obtain ⟨hl0, hn1⟩ := i3 l hrl
      subst hl0
      simp only [rstep, stepR, hrl]
      refine ⟨i1, i2, ?_, ?_, ?_, ?_, ?_, ?_⟩
      · intro l2 hl2
        have h2 : (0 : Nat) = l2 := by injection hl2
        subst h2
        exact ⟨rfl, hn1⟩
      · intro hx
        exact Option.noConfusion hx
      · intro l2 hl2
        have h2 : (0 : Nat) = l2 := by injection hl2
        subst h2
        exact ⟨rfl, rfl⟩
      · intro l2 hc
        exact ⟨(i6 l2 hc).1, rfl⟩
      · exact i7
      · exact i8
  | wantLock l =>
    obtain ⟨hl0, hreg⟩ := i5 l rfl
    subst hl0
    have hn1 : sh.nextLock = 1 := (i3 0 hreg).2
    have hlen1 : sh.locks.length = 1 := by rw [i2, hn1]
    rcases hlk : sh.locks with _ | ⟨b, rest⟩
    · rw [hlk] at hlen1
      cases hlen1
    · have hrest : rest = [] := by
        rw [hlk] at hlen1
        simpa using hlen1
      subst hrest
      by_cases hh : sh.locks.getD 0 false = true
      · simp only [rstep, stepR, hh, if_true]
        exact ⟨i1, i2, i3, i4, i5, i6, i7, i8⟩
      · have hh2 : sh.locks.getD 0 false = false := by simpa using hh
        have hBr : regionR pcB = false := by
          rw [hh2] at i8
          simpa [regionR_wantLock] using i8.symm
        simp only [rstep, stepR, hh2, Bool.false_eq_true, if_false]
        refine ⟨i1, by simp [i2], i3, i4,
          fun l2 hl2 => by
            cases hl2
            exact ⟨rfl, hreg⟩,
          fun l2 hc => ⟨(i6 l2 hc).1, hreg⟩,
          by simp [regionR_locked, hBr], ?_⟩
        rw [hlk]
        simp [regionR_locked, hBr]
  | locked l =>
    obtain ⟨hl0, hreg⟩ := i5 l rfl
    subst hl0
    have hn1 : sh.nextLock = 1 := (i3 0 hreg).2
    have hlen1 : sh.locks.length = 1 := by rw [i2, hn1]
    have hBr : regionR pcB = false := by
      by_contra hc
      exact i7 ⟨rfl, by simpa using hc⟩
    rcases hlk : sh.locks with _ | ⟨b, rest⟩
    · rw [hlk] at hlen1
      cases hlen1
    · have hrest : rest = [] := by
        rw [hlk] at hlen1
        simpa using hlen1
      subst hrest
      cases hap : sh.apis with
      | some bv =>
        cases bv with
        | true =>
          simp only [rstep, stepR, hap]
          refine ⟨i1, by simp [i2], i3, i4, by simp [capturedId_done], i6,
            by simp [regionR_done, hBr], ?_⟩
          rw [hlk]
          simp [regionR_done, hBr]
        | false =>
          simp only [rstep, stepR, hap]
          refine ⟨i1, i2, i3, i4,
            fun l2 hl2 => by
              cases hl2
              exact ⟨rfl, hreg⟩,
            i6, by simp [regionR_authing, hBr],
            by rw [i8]; simp [regionR_locked, regionR_authing]⟩
      | none =>
        simp only [rstep, stepR, hap]
        refine ⟨i1, i2, i3, i4,
          fun l2 hl2 => by
            cases hl2
            exact ⟨rfl, hreg⟩,
          i6, by simp [regionR_authing, hBr],
          by rw [i8]; simp [regionR_locked, regionR_authing]⟩
  | authing l =>
    obtain ⟨hl0, hreg⟩ := i5 l rfl
    subst hl0
    have hn1 : sh.nextLock = 1 := (i3 0 hreg).2
    have hlen1 : sh.locks.length = 1 := by rw [i2, hn1]
    have hBr : regionR pcB = false := by
      by_contra hc
      exact i7 ⟨rfl, by simpa using hc⟩
    rcases hlk : sh.locks with _ | ⟨b, rest⟩
    · rw [hlk] at hlen1
      cases hlen1
    · have hrest : rest = [] := by
        rw [hlk] at hlen1
        simpa using hlen1
      subst hrest
      simp only [rstep, stepR]
      refine ⟨i1, by simp [i2], i3, i4, by simp [capturedId_done], i6,
        by simp [regionR_done, hBr], ?_⟩
      rw [hlk]
      simp [regionR_done, hBr]
  | done =>
    simp only [rstep, stepR]
    exact ⟨i1, i2, i3, i4, by simp [capturedId_done], i6, i7, i8⟩

theorem rinv_step (fA fB : Bool) (st : RMState) (who : RWho)
    (hno : who ≠ RWho.inv) (h : RInv st) : RInv (rstep fA fB st who) := by
  cases who with
  | A => exact rinv_stepA fA fB st h
  | B =>
    rw [rstep_B_eq_rswap]
    exact (rinv_rswap _).mpr (rinv_stepA fB fA st.rswap ((rinv_rswap st).mpr h))
  | inv => exact absurd rfl hno

theorem rinv_run (fA fB : Bool) (sched : List RWho) (st : RMState)
    (hno : RWho.inv ∉ sched) (h : RInv st) :
    RInv (rrun fA fB sched st) := by
  induction sched generalizing st with
  | nil => exact h
  | cons w ws ih =>
    exact ih _ (fun hc => hno (List.mem_cons_self w ws |> fun _ => List.mem_cons.mpr (Or.inr hc)))
      (rinv_step fA fB st w (fun he => hno (he ▸ List.mem_cons_self w ws)) h)

/-- C9 (amended): for every initial registry entry and every
interleaving of the two callers (each running `get_shared_api`, possibly
via `force_reconnect_api`) that contains no `clear_shared_api` step, no
two authentications for the identity are ever in flight at the same
time: the single lazily created per-identity lock serializes them.  (A
`clear_shared_api` during an in-flight authentication deletes the lock's
map entry and breaks the ordering, as the counterexample shows.) -/
theorem registry_auth_serialized (fA fB : Bool) (a0 : Option Bool)
    (sched : List RWho) (hinv : RWho.inv ∉ sched) :
    ¬(isAuthing (rrun fA fB sched (initR a0)).pcA = true ∧
      isAuthing (rrun fA fB sched (initR a0)).pcB = true) := by
  have h0 : RInv (initR a0) := by
    refine ⟨by simp [initR], by simp [initR], ?_, by simp [initR], ?_, ?_, ?_, ?_⟩
    · intro l hl
      simp [initR] at hl
    · intro l hl
      simp [initR, capturedId] at hl
    · intro l hl
      simp [initR, capturedId] at hl
    · simp [initR, regionR]
    · simp [initR, regionR]
  have hI := rinv_run fA fB sched (initR a0) hinv h0
  obtain ⟨i1, i2, i3, i4, i5, i6, i7, i8⟩ := hI
  intro ⟨ha, hb⟩
  refine i7 ⟨?_, ?_⟩
  · cases hpa : (rrun fA fB sched (initR a0)).pcA <;>
      rw [hpa] at ha <;> simp [isAuthing] at ha <;> simp [regionR]
  · cases hpb : (rrun fA fB sched (initR a0)).pcB <;>
      rw [hpb] at hb <;> simp [isAuthing] at hb <;> simp [regionR]

/-- Witness: a concrete invalidate-free interleaving where caller A
authenticates and caller B then reuses the registered session. -/
theorem registry_auth_serialized_witness :
    ¬(isAuthing
        (rrun false false [RWho.A, RWho.A, RWho.A, RWho.A, RWho.B, RWho.B, RWho.B]
          (initR none)).pcA = true ∧
      isAuthing
        (rrun false false [RWho.A, RWho.A, RWho.A, RWho.A, RWho.B, RWho.B, RWho.B]
          (initR none)).pcB = true) :=
  registry_auth_serialized false false none
    [RWho.A, RWho.A, RWho.A, RWho.A, RWho.B, RWho.B, RWho.B] (by decide)

end RegistryMachine
